import Mathlib

/-!
Verification of the commit-history extraction and metrics-computation engine
of the hackathon repository analyzer (`scan.py`).

Modelling conventions (shallow embedding):
* Python `str` values are modelled as `List Char` (`Str` below); the string
  helpers used by the source (`split`, `strip`, `isdigit`, `int`) are embedded
  as structural recursions over `List Char` so the kernel can evaluate them.
* `parse_iso_datetime` is out of scope of these claims: the parser stores the
  raw ISO text (`author_iso`), and the metrics layer takes timestamps as
  integers (epoch seconds, already normalized to UTC).  Git author times are
  whole seconds, so the source's `timedelta.total_seconds()` is integer-valued
  and the divisions by `60.0` / `3600.0` are modelled exactly in `ℚ`.
* Fallible code (`raise RuntimeError`) is modelled with `Except`.
-/

abbrev Str := List Char

/-- Split a character list at every character satisfying `p`, keeping empty
pieces, as Python's `str.split(sep)` does for a one-character separator. -/
def splitOnPred (p : Char → Bool) : Str → List Str
  | [] => [[]]
  | c :: rest =>
    let r := splitOnPred p rest
    if p c then [] :: r
    else
      match r with
      | [] => [[c]]
      | h :: t => (c :: h) :: t

/-- Python `line.split(sep)` for a single-character separator. -/
def splitOnChar (sep : Char) (s : Str) : List Str :=
  splitOnPred (fun c => c = sep) s

/-- Python `str.strip()`: drop leading and trailing whitespace. -/
def pyStrip (s : Str) : Str :=
  ((s.dropWhile Char.isWhitespace).reverse.dropWhile Char.isWhitespace).reverse

/-- Python `str.split()` with no argument: split on whitespace runs,
dropping empty pieces. -/
def pySplitWs (s : Str) : List Str :=
  (splitOnPred Char.isWhitespace s).filter (fun t => !t.isEmpty)

/-- Python `str.isdigit()` (ASCII digits, as produced by `git log --numstat`):
nonempty and all characters are digits. -/
def pyIsDigitStr (s : Str) : Bool :=
  !s.isEmpty && s.all Char.isDigit

def digitsToNatAux (acc : Nat) : Str → Nat
  | [] => acc
  | c :: rest => digitsToNatAux (acc * 10 + (c.toNat - '0'.toNat)) rest

/-- Python `int(s)` for an all-digit string. -/
def pyInt (s : Str) : Nat := digitsToNatAux 0 s

/-- Python `int(x) if x.isdigit() else 0` — the defensive numstat field parse of
`collect_commit_data` (`scan.py` lines 150-151). -/
def parseNumstatField (s : Str) : Nat :=
  if pyIsDigitStr s then pyInt s else 0

/-- Constant from `scan.py` line 17. -/
def BULK_INSERTION_THRESHOLD : Nat := 1000

/-- Constant from `scan.py` line 18. -/
def BULK_FILES_THRESHOLD : Nat := 50

/-- The commit record accumulated by `collect_commit_data` (`scan.py`
lines 133-144).  `author_iso` keeps the raw ISO-8601 text; interpreting it
as a timestamp (`parse_iso_datetime`) is outside the parser's claims. -/
structure RawCommit where
  sha : Str
  author_iso : Str
  author_name : Str
  author_email : Str
  parents : List Str
  is_merge : Bool
  subject : Str
  insertions : Nat
  deletions : Nat
  files_changed : Nat
deriving DecidableEq, Inhabited

/-- The parser's only failure: `raise RuntimeError("Unexpected git log format")`
(`scan.py` line 130). -/
inductive ParseError where
  | unexpectedFormat
deriving DecidableEq

/-- Build the fresh accumulator from the six control-byte-delimited header
fields (`scan.py` lines 131-144): parents are split on whitespace with empty
entries filtered out, `is_merge` means more than one parent, and all numeric
totals start at zero. -/
def headerCommit (parts : List Str) : RawCommit :=
  let parents_raw := parts.getD 4 []
  let parents :=
    if (pyStrip parents_raw).isEmpty then [] else pySplitWs parents_raw
  { sha := parts.getD 0 []
    author_iso := parts.getD 1 []
    author_name := parts.getD 2 []
    author_email := parts.getD 3 []
    parents := parents
    is_merge := decide (parents.length > 1)
    subject := parts.getD 5 []
    insertions := 0
    deletions := 0
    files_changed := 0 }

/-- The accumulate-then-flush loop of `collect_commit_data` (`scan.py`
lines 118-158), with the flushed commits and the open accumulator made
explicit state.  A blank line flushes the open accumulator; a nonblank line
with no open accumulator must be a six-field header (else the format error);
a nonblank line with an open accumulator is treated as a numstat line and
ignored unless it has exactly three tab-separated fields. -/
def collectGo : List RawCommit → Option RawCommit → List Str →
    Except ParseError (List RawCommit)
  | commits, current, [] =>
    match current with
    | some c => .ok (commits ++ [c])
    | none => .ok commits
  | commits, current, line :: rest =>
    if (pyStrip line).isEmpty then
      match current with
      | some c => collectGo (commits ++ [c]) none rest
      | none => collectGo commits none rest
    else
      match current with
      | none =>
        let parts := splitOnChar '\x1f' line
        if parts.length = 6 then
          collectGo commits (some (headerCommit parts)) rest
        else
          .error .unexpectedFormat
      | some c =>
        let fields := splitOnChar '\t' line
        if fields.length = 3 then
          collectGo commits
            (some { c with
              insertions := c.insertions + parseNumstatField (fields.getD 0 [])
              deletions := c.deletions + parseNumstatField (fields.getD 1 [])
              files_changed := c.files_changed + 1 })
            rest
        else
          collectGo commits (some c) rest

/-- The function `collect_commit_data` applied to the lines of the git log output
(`result.stdout.splitlines()`). -/
def collect_commit_data (lines : List Str) : Except ParseError (List RawCommit) :=
  collectGo [] none lines

/-- A commit as consumed by `compute_metrics`: `author_time` is the parsed,
UTC-normalized timestamp in epoch seconds. -/
structure Commit where
  sha : Str
  author_time : Int
  author_name : Str
  author_email : Str
  parents : List Str
  is_merge : Bool
  subject : Str
  insertions : Nat
  deletions : Nat
  files_changed : Nat
deriving DecidableEq, Inhabited

/-- The enriched per-commit record built by `compute_metrics`
(`scan.py` lines 194-204). -/
structure EnrichedCommit extends Commit where
  minutes_since_prev_commit : Option ℚ
  minutes_since_t0 : ℚ
  is_before_t0 : Bool
  is_during_event : Bool
  is_after_t1 : Bool
  flag_bulk_commit : Bool
deriving DecidableEq, Inhabited

/-- The in-window test of `compute_metrics` (`scan.py` lines 174-178):
`t0 <= author_time <= t1` when `t1` is set, else `author_time >= t0`. -/
def isDuringB (t0 : Int) (t1 : Option Int) (c : Commit) : Bool :=
  match t1 with
  | some t1v => decide (t0 ≤ c.author_time ∧ c.author_time ≤ t1v)
  | none => decide (c.author_time ≥ t0)

/-- The after-window test of `compute_metrics` (`scan.py` lines 176-179):
`author_time > t1` when `t1` is set, else `False`. -/
def isAfterT1B (t1 : Option Int) (c : Commit) : Bool :=
  match t1 with
  | some t1v => decide (c.author_time > t1v)
  | none => false

/-- The `flag_bulk_commit` test (`scan.py` lines 189-192). -/
def flagBulkB (c : Commit) : Bool :=
  decide (c.insertions ≥ BULK_INSERTION_THRESHOLD) ||
    decide (c.files_changed ≥ BULK_FILES_THRESHOLD)

/-- The enrichment pass of `compute_metrics` (`scan.py` lines 167-204):
walks the commit list carrying the previous commit's time and the previous
in-window commit's time, and returns the enriched commits together with the
`minutes_between_all` and `minutes_between_event` gap lists. -/
def enrichAll (t0 : Int) (t1 : Option Int) :
    Option Int → Option Int → List Commit →
    List EnrichedCommit × List ℚ × List ℚ
  | _, _, [] => ([], [], [])
  | prevTime, eventPrev, c :: rest =>
    let minutes_since_prev : Option ℚ :=
      prevTime.map (fun p => ((c.author_time - p : Int) : ℚ) / 60)
    let gapsAllHere : List ℚ :=
      match prevTime with
      | some p => [((c.author_time - p : Int) : ℚ) / 60]
      | none => []
    let is_during : Bool := isDuringB t0 t1 c
    let gapsEventHere : List ℚ :=
      match eventPrev with
      | some p =>
        if is_during then [((c.author_time - p : Int) : ℚ) / 60] else []
      | none => []
    let eventPrevNext : Option Int :=
      if is_during then some c.author_time else eventPrev
    let e : EnrichedCommit :=
      { toCommit := c
        minutes_since_prev_commit := minutes_since_prev
        minutes_since_t0 := ((c.author_time - t0 : Int) : ℚ) / 60
        is_before_t0 := decide (c.author_time < t0)
        is_during_event := is_during
        is_after_t1 := isAfterT1B t1 c
        flag_bulk_commit := flagBulkB c }
    let tailResult := enrichAll t0 t1 (some c.author_time) eventPrevNext rest
    (e :: tailResult.1, gapsAllHere ++ tailResult.2.1,
      gapsEventHere ++ tailResult.2.2)

/-- Consecutive gaps in minutes of a timestamp list, relative to an optional
previous timestamp: the reference implementation of "gap to the previous
listed commit", used to characterise the two gap lists built by
`compute_metrics`. -/
def consecutiveGaps : Option Int → List Int → List ℚ
  | _, [] => []
  | none, t :: ts => consecutiveGaps (some t) ts
  | some p, t :: ts => ((t - p : Int) : ℚ) / 60 :: consecutiveGaps (some t) ts

/-- Python `statistics.median`: sort, take the middle element for odd counts, the
mean of the two middle elements for even counts. -/
def pyMedian (l : List ℚ) : ℚ :=
  let s := l.mergeSort (fun a b => decide (a ≤ b))
  let n := l.length
  if n % 2 = 1 then s.getD (n / 2) 0
  else (s.getD (n / 2 - 1) 0 + s.getD (n / 2) 0) / 2

/-- The local `safe_median` (`scan.py` lines 206-207): `median(values) if values else None`. -/
def safe_median (values : List ℚ) : Option ℚ :=
  if values.isEmpty then none else some (pyMedian values)

/-- The five-bucket histogram (`scan.py` lines 219-225). -/
structure TimeDistribution where
  commits_0_3h : Nat
  commits_3_6h : Nat
  commits_6_12h : Nat
  commits_12_24h : Nat
  commits_after_24h : Nat
deriving DecidableEq, Inhabited

/-- One step of the bucket loop (`scan.py` lines 227-240): skip commits not
in-window, otherwise classify by elapsed hours since `t0` through the
if/elif chain. -/
def addToBuckets (t0 : Int) (d : TimeDistribution) (c : EnrichedCommit) :
    TimeDistribution :=
  if c.is_during_event = false then d
  else
    let hours : ℚ := ((c.author_time - t0 : Int) : ℚ) / 3600
    if 0 ≤ hours ∧ hours < 3 then { d with commits_0_3h := d.commits_0_3h + 1 }
    else if 3 ≤ hours ∧ hours < 6 then { d with commits_3_6h := d.commits_3_6h + 1 }
    else if 6 ≤ hours ∧ hours < 12 then { d with commits_6_12h := d.commits_6_12h + 1 }
    else if 12 ≤ hours ∧ hours < 24 then { d with commits_12_24h := d.commits_12_24h + 1 }
    else if 24 ≤ hours then { d with commits_after_24h := d.commits_after_24h + 1 }
    else d

/-- The summary block (`scan.py` lines 246-257). -/
structure Summary where
  total_commits : Nat
  total_commits_before_t0 : Nat
  total_commits_during_event : Nat
  total_commits_after_t1 : Nat
  total_loc_added : Nat
  total_loc_deleted : Nat
  max_loc_added_single_commit : Nat
  max_files_changed_single_commit : Nat
  median_minutes_between_commits : Option ℚ
  median_minutes_between_commits_during_event : Option ℚ
deriving DecidableEq, Inhabited

/-- The repository-level flags block (`scan.py` lines 259-266). -/
structure Flags where
  has_commits_before_t0 : Bool
  has_bulk_commits : Bool
  has_large_initial_commit_after_t0 : Bool
  has_merge_commits : Bool
deriving DecidableEq, Inhabited

structure Metrics where
  summary : Summary
  time_distribution : TimeDistribution
  flags : Flags
  commits : List EnrichedCommit
deriving DecidableEq, Inhabited

/-- The function `compute_metrics` (`scan.py` lines 161-269). -/
def compute_metrics (commits : List Commit) (t0 : Int) (t1 : Option Int) :
    Metrics :=
  let enriched := enrichAll t0 t1 none none commits
  let commits_enriched := enriched.1
  let minutes_between_all := enriched.2.1
  let minutes_between_event := enriched.2.2
  let total_commits := commits_enriched.length
  let total_commits_before_t0 := commits_enriched.countP (fun c => c.is_before_t0)
  let total_commits_during_event :=
    commits_enriched.countP (fun c => c.is_during_event)
  let total_commits_after_t1 := commits_enriched.countP (fun c => c.is_after_t1)
  let total_loc_added := (commits_enriched.map (fun c => c.insertions)).sum
  let total_loc_deleted := (commits_enriched.map (fun c => c.deletions)).sum
  let max_loc_added_single_commit :=
    (commits_enriched.map (fun c => c.insertions)).foldr max 0
  let max_files_changed_single_commit :=
    (commits_enriched.map (fun c => c.files_changed)).foldr max 0
  let buckets := commits_enriched.foldl (addToBuckets t0) ⟨0, 0, 0, 0, 0⟩
  let first_during := commits_enriched.find? (fun c => c.is_during_event)
  let has_large_initial_commit_after_t0 :=
    match first_during with
    | some c => c.flag_bulk_commit
    | none => false
  { summary :=
      { total_commits := total_commits
        total_commits_before_t0 := total_commits_before_t0
        total_commits_during_event := total_commits_during_event
        total_commits_after_t1 := total_commits_after_t1
        total_loc_added := total_loc_added
        total_loc_deleted := total_loc_deleted
        max_loc_added_single_commit := max_loc_added_single_commit
        max_files_changed_single_commit := max_files_changed_single_commit
        median_minutes_between_commits := safe_median minutes_between_all
        median_minutes_between_commits_during_event :=
          safe_median minutes_between_event }
    time_distribution := buckets
    flags :=
      { has_commits_before_t0 := decide (total_commits_before_t0 > 0)
        has_bulk_commits :=
          commits_enriched.any (fun c => c.flag_bulk_commit && c.is_during_event)
        has_large_initial_commit_after_t0 := has_large_initial_commit_after_t0
        has_merge_commits := commits_enriched.any (fun c => c.is_merge) }
    commits := commits_enriched }

deriving instance DecidableEq for Except

/-- Elapsed hours since `t0`, the quantity bucketed by the histogram loop
(`scan.py` line 230). -/
def hrsQ (t0 : Int) (c : EnrichedCommit) : ℚ :=
  ((c.author_time - t0 : Int) : ℚ) / 3600

/-- Membership test for the `[0, 3)`-hour bucket: in-window and
`0 <= hours < 3`. -/
def bucketPred03 (t0 : Int) (c : EnrichedCommit) : Bool :=
  c.is_during_event && decide (0 ≤ hrsQ t0 c ∧ hrsQ t0 c < 3)

/-- Membership test for the `[3, 6)`-hour bucket. -/
def bucketPred36 (t0 : Int) (c : EnrichedCommit) : Bool :=
  c.is_during_event && decide (3 ≤ hrsQ t0 c ∧ hrsQ t0 c < 6)

/-- Membership test for the `[6, 12)`-hour bucket. -/
def bucketPred612 (t0 : Int) (c : EnrichedCommit) : Bool :=
  c.is_during_event && decide (6 ≤ hrsQ t0 c ∧ hrsQ t0 c < 12)

/-- Membership test for the `[12, 24)`-hour bucket. -/
def bucketPred1224 (t0 : Int) (c : EnrichedCommit) : Bool :=
  c.is_during_event && decide (12 ≤ hrsQ t0 c ∧ hrsQ t0 c < 24)

/-- Membership test for the `[24, ∞)`-hour bucket. -/
def bucketPredAfter24 (t0 : Int) (c : EnrichedCommit) : Bool :=
  c.is_during_event && decide (24 ≤ hrsQ t0 c)

/-- A commit record with the given author time and change totals; the text
fields are irrelevant to the metrics claims. -/
def mkCommit (t : Int) (ins del fc : Nat) : Commit :=
  { sha := [], author_time := t, author_name := [], author_email := [],
    parents := [], is_merge := false, subject := [], insertions := ins,
    deletions := del, files_changed := fc }

/-- A six-field header line (empty parent list) used as concrete input to the
parser. -/
def cHeaderLine : Str := "a\x1fb\x1fc\x1fd\x1f\x1fs".data

/-- The spec's worked scenario: three commits at `t0 - 1h`, `t0 + 1h` and
`t0 + 5h`, with `t0 = 0` (epoch seconds). -/
def scenarioCommits : List Commit :=
  [mkCommit (-3600) 10 0 1, mkCommit 3600 10 0 1, mkCommit 18000 10 0 1]

/-! ### Supporting lemmas -/

theorem compute_metrics_commits (cs : List Commit) (t0 : Int) (t1 : Option Int) :
    (compute_metrics cs t0 t1).commits = (enrichAll t0 t1 none none cs).1 := rfl

theorem enrichAll_length (t0 : Int) (t1 : Option Int) (cs : List Commit) :
    ∀ p q, (enrichAll t0 t1 p q cs).1.length = cs.length := by
  induction cs with
  | nil => intro p q; rfl
  | cons c rest ih => intro p q; simp [enrichAll, ih]

theorem enrichAll_mem_spec (t0 : Int) (t1 : Option Int) (cs : List Commit) :
    ∀ (p q : Option Int) (e : EnrichedCommit), e ∈ (enrichAll t0 t1 p q cs).1 →
      e.is_before_t0 = decide (e.author_time < t0) ∧
      e.is_during_event = isDuringB t0 t1 e.toCommit ∧
      e.is_after_t1 = isAfterT1B t1 e.toCommit ∧
      e.flag_bulk_commit = flagBulkB e.toCommit ∧
      e.minutes_since_t0 = ((e.author_time - t0 : Int) : ℚ) / 60 := by
  induction cs with
  | nil => intro p q e he; simp [enrichAll] at he
  | cons c rest ih =>
    intro p q e he
    simp only [enrichAll, List.mem_cons] at he
    rcases he with rfl | he
    · exact ⟨rfl, rfl, rfl, rfl, rfl⟩
    · exact ih _ _ e he

theorem enrichAll_minutes_getD (t0 : Int) (t1 : Option Int) (cs : List Commit) :
    ∀ (p q : Option Int) (i : Nat), i < cs.length →
      ((enrichAll t0 t1 p q cs).1.getD i default).minutes_since_prev_commit =
        (if i = 0 then
          p.map (fun x => (((cs.getD 0 default).author_time - x : Int) : ℚ) / 60)
        else
          some ((((cs.getD i default).author_time -
            (cs.getD (i - 1) default).author_time : Int) : ℚ) / 60)) := by
  induction cs with
  | nil => intro p q i hi; simp at hi
  | cons c rest ih =>
    intro p q i hi
    match i with
    | 0 => simp [enrichAll]
    | Nat.succ j =>
      have hj : j < rest.length := by
        simpa [Nat.succ_lt_succ_iff] using hi
      have h := ih (some c.author_time)
        (if isDuringB t0 t1 c then some c.author_time else q) j hj
      simp only [enrichAll, List.getD_cons_succ]
      rw [h]
      cases j with
      | zero => simp
      | succ k => simp

theorem enrichAll_gaps_all (t0 : Int) (t1 : Option Int) (cs : List Commit) :
    ∀ p q, (enrichAll t0 t1 p q cs).2.1 =
      consecutiveGaps p (cs.map Commit.author_time) := by
  induction cs with
  | nil => intro p q; cases p <;> rfl
  | cons c rest ih =>
    intro p q
    cases p <;> simp [enrichAll, consecutiveGaps, ih]

theorem enrichAll_gaps_event (t0 : Int) (t1 : Option Int) (cs : List Commit) :
    ∀ p q, (enrichAll t0 t1 p q cs).2.2 =
      consecutiveGaps q ((cs.filter (isDuringB t0 t1)).map Commit.author_time) := by
  induction cs with
  | nil => intro p q; cases q <;> rfl
  | cons c rest ih =>
    intro p q
    by_cases hd : isDuringB t0 t1 c = true
    · cases q <;> simp [enrichAll, consecutiveGaps, hd, ih, List.filter_cons]
    · cases q <;> simp [enrichAll, consecutiveGaps, hd, ih, List.filter_cons]

theorem consecutiveGaps_none_short (l : List Int) (hl : l.length < 2) :
    consecutiveGaps none l = [] := by
  cases l with
  | nil => rfl
  | cons t ts =>
    cases ts with
    | nil => rfl
    | cons a b => simp [List.length] at hl; omega

theorem find?_eq_some_iff_first {α : Type*} [Inhabited α] (p : α → Bool) (l : List α) (a : α) :
    l.find? p = some a ↔
      ∃ i, i < l.length ∧ l.getD i default = a ∧ p a = true ∧
        ∀ j, j < i → p (l.getD j default) = false := by
  induction l with
  | nil => simp
  | cons c t ih =>
    by_cases hc : p c = true
    · rw [List.find?_cons_of_pos _ hc]
      constructor
      · intro h
        obtain rfl : c = a := by simpa using h
        exact ⟨0, by simp, by simp, hc, fun j hj => absurd hj (Nat.not_lt_zero j)⟩
      · rintro ⟨i, hi, hget, hpa, hearlier⟩
        cases i with
        | zero => simp at hget; rw [hget]
        | succ j =>
          have h0 := hearlier 0 (Nat.succ_pos j)
          simp at h0
          rw [hc] at h0
          exact absurd h0 (by simp)
    · rw [List.find?_cons_of_neg _ hc]
      rw [ih]
      constructor
      · rintro ⟨i, hi, hget, hpa, hearlier⟩
        refine ⟨i + 1, by simpa using hi, by simpa using hget, hpa, ?_⟩
        intro j hj
        cases j with
        | zero => simpa using hc
        | succ k => simpa using hearlier k (by omega)
      · rintro ⟨i, hi, hget, hpa, hearlier⟩
        cases i with
        | zero =>
          simp at hget
          rw [← hget] at hpa
          exact absurd hpa hc
        | succ j =>
          refine ⟨j, by simpa using hi, by simpa using hget, hpa, ?_⟩
          intro k hk
          have := hearlier (k + 1) (by omega)
          simpa using this

theorem addToBuckets_spec (t0 : Int) (d : TimeDistribution) (c : EnrichedCommit) :
    addToBuckets t0 d c =
      ⟨d.commits_0_3h + (if bucketPred03 t0 c then 1 else 0),
       d.commits_3_6h + (if bucketPred36 t0 c then 1 else 0),
       d.commits_6_12h + (if bucketPred612 t0 c then 1 else 0),
       d.commits_12_24h + (if bucketPred1224 t0 c then 1 else 0),
       d.commits_after_24h + (if bucketPredAfter24 t0 c then 1 else 0)⟩ := by
  unfold addToBuckets bucketPred03 bucketPred36 bucketPred612 bucketPred1224
    bucketPredAfter24 hrsQ
  by_cases hd : c.is_during_event = true
  · simp only [hd, Bool.true_and, Bool.true_eq_false, if_false, decide_eq_true_eq]
    have h : ((c.author_time - t0 : Int) : ℚ) / 3600 =
        ((c.author_time - t0 : Int) : ℚ) / 3600 := rfl
    generalize ((c.author_time - t0 : Int) : ℚ) / 3600 = x
    split_ifs with h1 h2 h3 h4 h5 <;> simp <;> linarith
  · simp only [Bool.not_eq_true] at hd
    simp [hd]

theorem buckets_foldl_spec (t0 : Int) (es : List EnrichedCommit) :
    ∀ d, es.foldl (addToBuckets t0) d =
      ⟨d.commits_0_3h + es.countP (bucketPred03 t0),
       d.commits_3_6h + es.countP (bucketPred36 t0),
       d.commits_6_12h + es.countP (bucketPred612 t0),
       d.commits_12_24h + es.countP (bucketPred1224 t0),
       d.commits_after_24h + es.countP (bucketPredAfter24 t0)⟩ := by
  induction es with
  | nil => intro d; simp
  | cons e t ih =>
    intro d
    rw [List.foldl_cons, ih, addToBuckets_spec]
    simp only [List.countP_cons, TimeDistribution.mk.injEq]
    refine ⟨?_, ?_, ?_, ?_, ?_⟩ <;> omega

theorem q_bounds_0_3 (s : Int) :
    ((0:ℚ) ≤ (s : ℚ) / 3600 ∧ (s : ℚ) / 3600 < 3) ↔ (0 ≤ s ∧ s < 10800) := by
  rw [le_div_iff₀ (by norm_num : (0:ℚ) < 3600), div_lt_iff₀ (by norm_num : (0:ℚ) < 3600)]
  norm_cast
  try omega

theorem bucketPred03_int (t0 : Int) :
    bucketPred03 t0 = fun c =>
      c.is_during_event &&
        decide (0 ≤ c.author_time - t0 ∧ c.author_time - t0 < 10800) := by
  funext c
  unfold bucketPred03 hrsQ
  congr 1
  rw [decide_eq_decide]
  exact q_bounds_0_3 (c.author_time - t0)

theorem q_bounds_3_6 (s : Int) :
    ((3:ℚ) ≤ (s : ℚ) / 3600 ∧ (s : ℚ) / 3600 < 6) ↔ (10800 ≤ s ∧ s < 21600) := by
  rw [le_div_iff₀ (by norm_num : (0:ℚ) < 3600), div_lt_iff₀ (by norm_num : (0:ℚ) < 3600)]
  norm_cast
  try omega

theorem q_bounds_6_12 (s : Int) :
    ((6:ℚ) ≤ (s : ℚ) / 3600 ∧ (s : ℚ) / 3600 < 12) ↔ (21600 ≤ s ∧ s < 43200) := by
  rw [le_div_iff₀ (by norm_num : (0:ℚ) < 3600), div_lt_iff₀ (by norm_num : (0:ℚ) < 3600)]
  norm_cast
  try omega

theorem q_bounds_12_24 (s : Int) :
    ((12:ℚ) ≤ (s : ℚ) / 3600 ∧ (s : ℚ) / 3600 < 24) ↔ (43200 ≤ s ∧ s < 86400) := by
  rw [le_div_iff₀ (by norm_num : (0:ℚ) < 3600), div_lt_iff₀ (by norm_num : (0:ℚ) < 3600)]
  norm_cast
  try omega

theorem q_bounds_24 (s : Int) :
    ((24:ℚ) ≤ (s : ℚ) / 3600) ↔ (86400 ≤ s) := by
  rw [le_div_iff₀ (by norm_num : (0:ℚ) < 3600)]
  norm_cast

theorem bucketPred36_int (t0 : Int) :
    bucketPred36 t0 = fun c =>
      c.is_during_event &&
        decide (10800 ≤ c.author_time - t0 ∧ c.author_time - t0 < 21600) := by
  funext c
  unfold bucketPred36 hrsQ
  congr 1
  rw [decide_eq_decide]
  exact q_bounds_3_6 (c.author_time - t0)

theorem bucketPred612_int (t0 : Int) :
    bucketPred612 t0 = fun c =>
      c.is_during_event &&
        decide (21600 ≤ c.author_time - t0 ∧ c.author_time - t0 < 43200) := by
  funext c
  unfold bucketPred612 hrsQ
  congr 1
  rw [decide_eq_decide]
  exact q_bounds_6_12 (c.author_time - t0)

theorem bucketPred1224_int (t0 : Int) :
    bucketPred1224 t0 = fun c =>
      c.is_during_event &&
        decide (43200 ≤ c.author_time - t0 ∧ c.author_time - t0 < 86400) := by
  funext c
  unfold bucketPred1224 hrsQ
  congr 1
  rw [decide_eq_decide]
  exact q_bounds_12_24 (c.author_time - t0)

theorem bucketPredAfter24_int (t0 : Int) :
    bucketPredAfter24 t0 = fun c =>
      c.is_during_event && decide (86400 ≤ c.author_time - t0) := by
  funext c
  unfold bucketPredAfter24 hrsQ
  congr 1
  rw [decide_eq_decide]
  exact q_bounds_24 (c.author_time - t0)

theorem isDuringB_some (t0 t1v : Int) (c : Commit) :
    isDuringB t0 (some t1v) c = decide (t0 ≤ c.author_time ∧ c.author_time ≤ t1v) := rfl

theorem isDuringB_none (t0 : Int) (c : Commit) :
    isDuringB t0 none c = decide (c.author_time ≥ t0) := rfl

theorem isAfterT1B_some (t1v : Int) (c : Commit) :
    isAfterT1B (some t1v) c = decide (c.author_time > t1v) := rfl

theorem isAfterT1B_none (c : Commit) : isAfterT1B none c = false := rfl

/-- C1: for every commit sequence and event window with `t1` set and
`t0 ≤ t1`, each classified commit has exactly one of `is_before_t0`,
`is_during_event`, `is_after_t1` set; a commit whose `author_time` equals
`t0` or `t1` is classified in-window; and when `t1` is absent `is_after_t1`
is `false` for every commit. -/
theorem C1_window_classification (cs : List Commit) (t0 t1v : Int) (h : t0 ≤ t1v) :
    (∀ e ∈ (compute_metrics cs t0 (some t1v)).commits,
      ((e.is_before_t0 = true ∧ e.is_during_event = false ∧ e.is_after_t1 = false) ∨
       (e.is_before_t0 = false ∧ e.is_during_event = true ∧ e.is_after_t1 = false) ∨
       (e.is_before_t0 = false ∧ e.is_during_event = false ∧ e.is_after_t1 = true)) ∧
      ((e.author_time = t0 ∨ e.author_time = t1v) → e.is_during_event = true)) ∧
    (∀ e ∈ (compute_metrics cs t0 none).commits, e.is_after_t1 = false) := by
  constructor
  · intro e he
    rw [compute_metrics_commits] at he
    obtain ⟨hb, hd, ha, -, -⟩ := enrichAll_mem_spec t0 (some t1v) cs none none e he
    rw [hb, hd, ha, isDuringB_some, isAfterT1B_some]
    constructor
    · simp only [decide_eq_true_eq, decide_eq_false_iff_not]
      omega
    · intro ht
      simp only [decide_eq_true_eq]
      omega
  · intro e he
    rw [compute_metrics_commits] at he
    obtain ⟨-, -, ha, -, -⟩ := enrichAll_mem_spec t0 none cs none none e he
    rw [ha, isAfterT1B_none]

/-- Witness for C1 at a concrete input: a commit exactly at `t0` is
classified in-window. -/
theorem C1_window_classification_witness :
    ((compute_metrics [mkCommit 0 1 0 1] 0 (some 100)).commits.get
      ⟨0, by decide⟩).is_during_event = true :=
  ((C1_window_classification [mkCommit 0 1 0 1] 0 100 (by decide)).1
    ((compute_metrics [mkCommit 0 1 0 1] 0 (some 100)).commits.get ⟨0, by decide⟩)
    (List.get_mem _ _ _)).2 (Or.inl (by decide))

/-- C4: a classified commit has `flag_bulk_commit` set if and only if its
insertions reach 1000 or its files-changed count reaches 50. -/
theorem C4_bulk_flag (cs : List Commit) (t0 : Int) (t1 : Option Int) :
    ∀ e ∈ (compute_metrics cs t0 t1).commits,
      (e.flag_bulk_commit = true ↔ (1000 ≤ e.insertions ∨ 50 ≤ e.files_changed)) := by
  intro e he
  rw [compute_metrics_commits] at he
  obtain ⟨-, -, -, hf, -⟩ := enrichAll_mem_spec t0 t1 cs none none e he
  rw [hf]
  unfold flagBulkB BULK_INSERTION_THRESHOLD BULK_FILES_THRESHOLD
  simp

/-- Witness for C4: a commit with 1000 insertions in one file is flagged,
one with 999 insertions over 49 files is not. -/
theorem C4_bulk_flag_witness :
    ((compute_metrics [mkCommit 0 1000 0 1, mkCommit 0 999 0 49] 0 none).commits.get
        ⟨0, by decide⟩).flag_bulk_commit = true ∧
    ((compute_metrics [mkCommit 0 1000 0 1, mkCommit 0 999 0 49] 0 none).commits.get
        ⟨1, by decide⟩).flag_bulk_commit = false := by
  constructor
  · exact (C4_bulk_flag [mkCommit 0 1000 0 1, mkCommit 0 999 0 49] 0 none _
      (List.get_mem _ _ _)).mpr (Or.inl (by decide))
  · have h := C4_bulk_flag [mkCommit 0 1000 0 1, mkCommit 0 999 0 49] 0 none
      ((compute_metrics [mkCommit 0 1000 0 1, mkCommit 0 999 0 49] 0 none).commits.get
        ⟨1, by decide⟩) (List.get_mem _ _ _)
    rw [Bool.eq_false_iff]
    intro ht
    rcases h.mp ht with hx | hx
    · exact absurd hx (by decide)
    · exact absurd hx (by decide)

/-- C10: on the empty commit sequence the metrics are all zero counts and
totals, absent medians, empty histogram, all flags false, and no error. -/
theorem C10_empty_metrics (t0 : Int) (t1 : Option Int) :
    compute_metrics [] t0 t1 =
      { summary :=
          { total_commits := 0
            total_commits_before_t0 := 0
            total_commits_during_event := 0
            total_commits_after_t1 := 0
            total_loc_added := 0
            total_loc_deleted := 0
            max_loc_added_single_commit := 0
            max_files_changed_single_commit := 0
            median_minutes_between_commits := none
            median_minutes_between_commits_during_event := none }
        time_distribution := ⟨0, 0, 0, 0, 0⟩
        flags := ⟨false, false, false, false⟩
        commits := [] } := rfl

/-- C3: whenever the parser processes a nonblank line with no open
accumulator (a header position) that does not split into exactly six
control-byte-delimited fields, it fails with the format error instead of
returning a commit sequence; in particular this holds for the whole-input
entry point. -/
theorem C3_header_field_count_error (commits : List RawCommit) (line : Str)
    (rest : List Str) (hnb : (pyStrip line).isEmpty = false)
    (hn : (splitOnChar '\x1f' line).length ≠ 6) :
    collectGo commits none (line :: rest) = .error ParseError.unexpectedFormat ∧
    collect_commit_data (line :: rest) = .error ParseError.unexpectedFormat := by
  constructor
  · simp [collectGo, hnb, hn]
  · unfold collect_commit_data
    simp [collectGo, hnb, hn]

/-- Witness for C3: a one-field line at the start of the input is rejected. -/
theorem C3_header_field_count_error_witness :
    collect_commit_data ["bad".data] = .error ParseError.unexpectedFormat :=
  (C3_header_field_count_error [] "bad".data [] (by decide) (by decide)).2

/-- C9: a three-field tab-separated numstat line whose insertions or
deletions field is not a base-10 digit string (such as the binary-file line
`-<TAB>-<TAB>binary.png`, or a mixed line like `5<TAB>-<TAB>path`) adds the
defensively parsed value of each field to the accumulator — which is 0 for
every non-digit field — and still increments `files_changed` by one. -/
theorem C9_numstat_defensive (commits : List RawCommit) (c : RawCommit)
    (line : Str) (rest : List Str)
    (hnb : (pyStrip line).isEmpty = false)
    (h3 : (splitOnChar '\t' line).length = 3)
    (hor : pyIsDigitStr ((splitOnChar '\t' line).getD 0 []) = false ∨
           pyIsDigitStr ((splitOnChar '\t' line).getD 1 []) = false) :
    (collectGo commits (some c) (line :: rest) =
      collectGo commits
        (some { c with
          insertions := c.insertions +
            parseNumstatField ((splitOnChar '\t' line).getD 0 [])
          deletions := c.deletions +
            parseNumstatField ((splitOnChar '\t' line).getD 1 [])
          files_changed := c.files_changed + 1 }) rest) ∧
    (∀ s : Str, pyIsDigitStr s = false → parseNumstatField s = 0) := by
  constructor
  · obtain ⟨a, b, p, hsplit⟩ := List.length_eq_three.mp h3
    rw [hsplit]
    simp [collectGo, hnb, hsplit]
  · intro s hs
    simp [parseNumstatField, hs]

/-- Witness for C9 at the mixed numstat line whose deletions field is the
binary-file dash: only the digit field contributes, and the non-digit
field's parsed value is zero. -/
theorem C9_numstat_defensive_witness :
    (collectGo [] (some default) ["5\t-\tpath".data] =
      collectGo []
        (some { (default : RawCommit) with
          insertions := (default : RawCommit).insertions +
            parseNumstatField ((splitOnChar '\t' "5\t-\tpath".data).getD 0 [])
          deletions := (default : RawCommit).deletions +
            parseNumstatField ((splitOnChar '\t' "5\t-\tpath".data).getD 1 [])
          files_changed := (default : RawCommit).files_changed + 1 }) []) ∧
    parseNumstatField ((splitOnChar '\t' "5\t-\tpath".data).getD 1 []) = 0 := by
  have h := C9_numstat_defensive [] default "5\t-\tpath".data [] (by decide)
    (by decide) (Or.inr (by decide))
  exact ⟨h.1, h.2 _ (by decide)⟩

/-- C2 counterexample: on an input of two consecutive six-field header lines
(no blank line between them), the parser returns a single commit — the
second header, encountered while the first commit's accumulator was still
open, is NOT flushed-and-restarted as the claim states (that behaviour
would yield two commits); it is silently skipped. -/
theorem C2_counterexample :
    (collect_commit_data [cHeaderLine, cHeaderLine]).map List.length = Except.ok 1 ∧
    (collect_commit_data [cHeaderLine, cHeaderLine]).map List.length ≠ Except.ok 2 := by
  constructor
  · decide
  · decide

theorem pySplitWs_all_ws : ∀ s : Str, (∀ x ∈ s, Char.isWhitespace x) →
    pySplitWs s = []
  | [], _ => rfl
  | a :: t, h => by
    have ha : Char.isWhitespace a = true := h a (List.mem_cons_self a t)
    have ht := pySplitWs_all_ws t (fun x hx => h x (List.mem_cons_of_mem a hx))
    unfold pySplitWs at ht ⊢
    unfold splitOnPred
    simp only [ha, if_pos]
    rw [List.filter_cons]
    simpa using ht

theorem pyStrip_isEmpty_all_ws (s : Str) (h : (pyStrip s).isEmpty = true) :
    ∀ x ∈ s, Char.isWhitespace x := by
  unfold pyStrip at h
  rw [List.isEmpty_iff, List.reverse_eq_nil_iff, List.dropWhile_eq_nil_iff] at h
  intro x hx
  rw [← List.takeWhile_append_dropWhile (p := Char.isWhitespace) (l := s)] at hx
  rcases List.mem_append.mp hx with hx | hx
  · exact List.mem_takeWhile_imp hx
  · exact h x (List.mem_reverse.mpr hx)

/-- C2 amended: a header line is only recognised when no accumulator is open
(blank lines are what close accumulators); a nonblank line reached while an
accumulator is open that does not split into exactly three tab-separated
fields — in particular a six-field header line — is skipped, leaving the
accumulator unchanged; when no accumulator is open, a six-field header line
starts a fresh accumulator from its fields, whose parent list is the
whitespace-split of the fifth field with empty entries filtered out. -/
theorem C2_header_only_when_closed (commits : List RawCommit) (c : RawCommit)
    (line : Str) (rest : List Str) :
    ((pyStrip line).isEmpty = false → (splitOnChar '\t' line).length ≠ 3 →
      collectGo commits (some c) (line :: rest) = collectGo commits (some c) rest) ∧
    ((pyStrip line).isEmpty = false → (splitOnChar '\x1f' line).length = 6 →
      collectGo commits none (line :: rest) =
        collectGo commits (some (headerCommit (splitOnChar '\x1f' line))) rest) ∧
    (∀ parts : List Str, (headerCommit parts).parents =
      (splitOnPred Char.isWhitespace (parts.getD 4 [])).filter (fun t => !t.isEmpty)) := by
  refine ⟨?_, ?_, ?_⟩
  · intro hnb h3
    simp [collectGo, hnb, h3]
  · intro hnb h6
    simp [collectGo, hnb, h6]
  · intro parts
    unfold headerCommit
    by_cases hs : (pyStrip (parts.getD 4 [])).isEmpty = true
    · simp only [hs, if_pos]
      exact (pySplitWs_all_ws _ (pyStrip_isEmpty_all_ws _ hs)).symm
    · simp only [Bool.not_eq_true] at hs
      simp only [hs]
      rfl

/-- Witness for the amended C2: a six-field header line arriving while an
accumulator is open is skipped. -/
theorem C2_header_only_when_closed_witness :
    collectGo [] (some default) [cHeaderLine] = collectGo [] (some default) [] :=
  (C2_header_only_when_closed [] default cHeaderLine []).1 (by decide) (by decide)

/-- C5: `minutes_since_prev_commit` is absent for the first classified
commit and equals the author-time difference in minutes of commits `i` and
`i-1` for every later index; `minutes_since_t0` equals the signed delta
from `t0` in minutes and is negative exactly when the commit precedes
`t0`. -/
theorem C5_minutes (cs : List Commit) (t0 : Int) (t1 : Option Int) :
    (0 < cs.length →
      ((compute_metrics cs t0 t1).commits.getD 0 default).minutes_since_prev_commit
        = none) ∧
    (∀ i, 0 < i → i < cs.length →
      ((compute_metrics cs t0 t1).commits.getD i default).minutes_since_prev_commit =
        some ((((cs.getD i default).author_time -
          (cs.getD (i - 1) default).author_time : Int) : ℚ) / 60)) ∧
    (∀ e ∈ (compute_metrics cs t0 t1).commits,
      e.minutes_since_t0 = ((e.author_time - t0 : Int) : ℚ) / 60 ∧
      (e.minutes_since_t0 < 0 ↔ e.author_time < t0)) := by
  refine ⟨?_, ?_, ?_⟩
  · intro h0
    rw [compute_metrics_commits, enrichAll_minutes_getD t0 t1 cs none none 0 h0]
    simp
  · intro i hi0 hil
    rw [compute_metrics_commits, enrichAll_minutes_getD t0 t1 cs none none i hil,
      if_neg (by omega)]
  · intro e he
    rw [compute_metrics_commits] at he
    obtain ⟨-, -, -, -, hm⟩ := enrichAll_mem_spec t0 t1 cs none none e he
    refine ⟨hm, ?_⟩
    rw [hm]
    constructor
    · intro hlt
      have hx : ((e.author_time - t0 : Int) : ℚ) < 0 := by
        by_contra hge
        push_neg at hge
        have := div_nonneg hge (by norm_num : (0:ℚ) ≤ 60)
        linarith
      have hx2 : e.author_time - t0 < 0 := by exact_mod_cast hx
      omega
    · intro hlt
      have hx : ((e.author_time - t0 : Int) : ℚ) < 0 := by
        exact_mod_cast (by omega : e.author_time - t0 < (0 : Int))
      exact div_neg_of_neg_of_pos hx (by norm_num)

/-- Witness for C5 at two concrete commits 120 seconds apart. -/
theorem C5_minutes_witness :
    ((compute_metrics [mkCommit 0 1 0 1, mkCommit 120 0 0 1] 5 none).commits.getD 1
      default).minutes_since_prev_commit =
      some ((((([mkCommit 0 1 0 1, mkCommit 120 0 0 1].getD 1
          default).author_time -
        ([mkCommit 0 1 0 1, mkCommit 120 0 0 1].getD 0
          default).author_time : Int)) : ℚ) / 60) :=
  (C5_minutes [mkCommit 0 1 0 1, mkCommit 120 0 0 1] 5 none).2.1 1 (by decide)
    (by decide)

/-- C8: the all-commit and in-window gap medians are the `safe_median` of the
corresponding consecutive-gap lists — in particular the in-window list is
built against the previous in-window commit — and each median is absent
(`none`, not zero and not an error) when its gap list has fewer than two
contributing commits. -/
theorem C8_median_gaps (cs : List Commit) (t0 : Int) (t1 : Option Int) :
    ((compute_metrics cs t0 t1).summary.median_minutes_between_commits =
      safe_median (consecutiveGaps none (cs.map Commit.author_time))) ∧
    ((compute_metrics cs t0 t1).summary.median_minutes_between_commits_during_event =
      safe_median (consecutiveGaps none
        ((cs.filter (isDuringB t0 t1)).map Commit.author_time))) ∧
    (cs.length < 2 →
      (compute_metrics cs t0 t1).summary.median_minutes_between_commits = none) ∧
    ((cs.filter (isDuringB t0 t1)).length < 2 →
      (compute_metrics cs t0 t1).summary.median_minutes_between_commits_during_event
        = none) := by
  have h1 : (compute_metrics cs t0 t1).summary.median_minutes_between_commits =
      safe_median ((enrichAll t0 t1 none none cs).2.1) := rfl
  have h2 : (compute_metrics cs t0 t1).summary.median_minutes_between_commits_during_event
      = safe_median ((enrichAll t0 t1 none none cs).2.2) := rfl
  refine ⟨?_, ?_, ?_, ?_⟩
  · rw [h1, enrichAll_gaps_all]
  · rw [h2, enrichAll_gaps_event]
  · intro hlen
    rw [h1, enrichAll_gaps_all,
      consecutiveGaps_none_short _ (by simpa using hlen)]
    rfl
  · intro hlen
    rw [h2, enrichAll_gaps_event,
      consecutiveGaps_none_short _ (by simpa using hlen)]
    rfl

/-- Witness for C8: with a single in-window commit the in-window median is
absent. -/
theorem C8_median_gaps_witness :
    (compute_metrics [mkCommit 7 1 0 1] 0 none).summary.median_minutes_between_commits_during_event
      = none :=
  (C8_median_gaps [mkCommit 7 1 0 1] 0 none).2.2.2 (by decide)

theorem compute_metrics_large_flag (cs : List Commit) (t0 : Int) (t1 : Option Int) :
    (compute_metrics cs t0 t1).flags.has_large_initial_commit_after_t0 =
      (match (enrichAll t0 t1 none none cs).1.find? (fun c => c.is_during_event) with
       | some c => c.flag_bulk_commit
       | none => false) := rfl

/-- C6: `has_large_initial_commit_after_t0` is true exactly when some
in-window commit exists, all commits before it are out-of-window, and that
first in-window commit is flagged bulk; with no in-window commit the flag
is false. -/
theorem C6_first_in_window_flag (cs : List Commit) (t0 : Int) (t1 : Option Int) :
    ((compute_metrics cs t0 t1).flags.has_large_initial_commit_after_t0 = true ↔
      ∃ i, i < (compute_metrics cs t0 t1).commits.length ∧
        ((compute_metrics cs t0 t1).commits.getD i default).is_during_event = true ∧
        ((compute_metrics cs t0 t1).commits.getD i default).flag_bulk_commit = true ∧
        ∀ j, j < i →
          ((compute_metrics cs t0 t1).commits.getD j default).is_during_event
            = false) ∧
    ((∀ e ∈ (compute_metrics cs t0 t1).commits, e.is_during_event = false) →
      (compute_metrics cs t0 t1).flags.has_large_initial_commit_after_t0 = false) := by
  rw [compute_metrics_commits, compute_metrics_large_flag]
  constructor
  · cases hfind : (enrichAll t0 t1 none none cs).1.find? (fun c => c.is_during_event) with
    | none =>
      simp only
      rw [List.find?_eq_none] at hfind
      constructor
      · intro h
        exact absurd h (by simp)
      · rintro ⟨i, hi, hid, -, -⟩
        have hmem : (enrichAll t0 t1 none none cs).1.getD i default
            ∈ (enrichAll t0 t1 none none cs).1 := by
          rw [List.getD_eq_getElem _ _ hi]
          exact List.getElem_mem hi
        exact absurd hid (by simpa using hfind _ hmem)
    | some a =>
      simp only
      obtain ⟨i, hi, hget, hpa, hearlier⟩ :=
        (find?_eq_some_iff_first (fun c => c.is_during_event) _ a).mp hfind
      constructor
      · intro hfl
        exact ⟨i, hi, by rw [hget]; exact hpa, by rw [hget]; exact hfl, hearlier⟩
      · rintro ⟨j, hj, hjd, hjf, hjearlier⟩
        have hfind2 : (enrichAll t0 t1 none none cs).1.find? (fun c => c.is_during_event)
            = some ((enrichAll t0 t1 none none cs).1.getD j default) :=
          (find?_eq_some_iff_first _ _ _).mpr ⟨j, hj, rfl, hjd, hjearlier⟩
        rw [hfind] at hfind2
        rw [← Option.some_inj.mp hfind2] at hjf
        exact hjf
  · intro hall
    have : (enrichAll t0 t1 none none cs).1.find? (fun c => c.is_during_event) = none := by
      rw [List.find?_eq_none]
      intro x hx
      simp [hall x hx]
    rw [this]

/-- Witness for C6: with no in-window commit the flag is false. -/
theorem C6_first_in_window_flag_witness :
    (compute_metrics [mkCommit (-50) 5000 0 99] 0 (some 10)).flags.has_large_initial_commit_after_t0
      = false :=
  (C6_first_in_window_flag [mkCommit (-50) 5000 0 99] 0 (some 10)).2 (by decide)

/-- C7: the histogram counts in-window commits only, into the five
half-open hour buckets `[0,3)`, `[3,6)`, `[6,12)`, `[12,24)`, `[24,∞)`
measured from `t0` (lower bound inclusive, so a boundary commit falls in
the later bucket); and in the spec's three-commit scenario the counts are
before = 1, during = 2, bucket `[0,3)` = 1 and bucket `[3,6)` = 1. -/
theorem C7_bucket_histogram :
    (∀ (cs : List Commit) (t0 : Int) (t1 : Option Int),
      (compute_metrics cs t0 t1).time_distribution =
        ⟨(compute_metrics cs t0 t1).commits.countP (bucketPred03 t0),
         (compute_metrics cs t0 t1).commits.countP (bucketPred36 t0),
         (compute_metrics cs t0 t1).commits.countP (bucketPred612 t0),
         (compute_metrics cs t0 t1).commits.countP (bucketPred1224 t0),
         (compute_metrics cs t0 t1).commits.countP (bucketPredAfter24 t0)⟩) ∧
    ((compute_metrics scenarioCommits 0 (some 86400)).summary.total_commits_before_t0
        = 1 ∧
     (compute_metrics scenarioCommits 0 (some 86400)).summary.total_commits_during_event
        = 2 ∧
     (compute_metrics scenarioCommits 0 (some 86400)).time_distribution.commits_0_3h
        = 1 ∧
     (compute_metrics scenarioCommits 0 (some 86400)).time_distribution.commits_3_6h
        = 1) := by
  have hgen : ∀ (cs : List Commit) (t0 : Int) (t1 : Option Int),
      (compute_metrics cs t0 t1).time_distribution =
        ⟨(compute_metrics cs t0 t1).commits.countP (bucketPred03 t0),
         (compute_metrics cs t0 t1).commits.countP (bucketPred36 t0),
         (compute_metrics cs t0 t1).commits.countP (bucketPred612 t0),
         (compute_metrics cs t0 t1).commits.countP (bucketPred1224 t0),
         (compute_metrics cs t0 t1).commits.countP (bucketPredAfter24 t0)⟩ := by
    intro cs t0 t1
    show (enrichAll t0 t1 none none cs).1.foldl (addToBuckets t0) ⟨0, 0, 0, 0, 0⟩ = _
    rw [buckets_foldl_spec]
    simp [compute_metrics_commits]
  refine ⟨hgen, ?_, ?_, ?_, ?_⟩
  · decide
  · decide
  · rw [hgen scenarioCommits 0 (some 86400)]
    rw [bucketPred03_int]
    decide
  · rw [hgen scenarioCommits 0 (some 86400)]
    rw [bucketPred36_int]
    decide
